import Mathlib

/-!
Verification of the data-access and validation layer of a small REST API
over categories and questions (TypeScript, zod validation, Prisma storage).

The embedding below translates the code of `src/categories.db.ts`,
`src/questions.db.ts` and the question routes of `src/index.ts`:

* untyped JSON input is the inductive `Json`;
* finite JavaScript numbers are modelled by `JsNum`, dyadic rationals
  `mant / 2 ^ exp` (every finite IEEE-754 double is such a value; range
  limits, NaN and the infinities are outside the model);
* `zod` schema validation (`safeParse`) is modelled as a function into
  `Option` of the typed payload: `some data` for `success: true`,
  `none` for `success: false` (the error detail is not modelled);
* string length is `String.length` (code points); the code uses the
  JavaScript `length` (UTF-16 units), which agrees on the ASCII inputs
  used throughout;
* the Prisma store is a list of rows passed and returned explicitly;
  `findUnique` on a unique column is `List.find?`, `findMany` with
  `orderBy: id asc` is a merge sort on ids, `update`/`delete` keyed by a
  unique column rewrite or drop the first matching row.  Storage-level
  unique-constraint violations raise exceptions in the code and are not
  modelled: the functions below model the non-throwing paths;
* the external `xss` sanitizer is an injected parameter
  `san : String -> String`; a concrete model of it appears further down;
* `toLowerCase`, the regex classes `\s` and `\w`, and `parseInt(-, 10)`
  are modelled on the ASCII fragment (plus NBSP for `\s`), which covers
  every input appearing in the repository and in the claims.
-/

/-- Untyped JSON value, the input type of the zod validators
(`safeParse` receives the parsed request body as `unknown`). -/
inductive Json where
  | null : Json
  | bool (b : Bool) : Json
  | num (n : Int) (exp : Nat) : Json
  | str (s : String) : Json
  | arr (elems : List Json) : Json
  | obj (fields : List (String × Json)) : Json

/-- Model of a finite JavaScript number: the dyadic rational
`mant / 2 ^ exp`. -/
structure JsNum where
  mant : Int
  exp : Nat
deriving DecidableEq

/-- Numeric equality of two modelled JavaScript numbers
(cross multiplication, since representations need not be reduced). -/
def JsNum.eqv (a b : JsNum) : Bool :=
  a.mant * (2 : Int) ^ b.exp == b.mant * (2 : Int) ^ a.exp

/-- Whether the modelled JavaScript number is an integer. -/
def JsNum.isInt (a : JsNum) : Bool :=
  a.mant % (2 : Int) ^ a.exp == 0

/-- The integer `n` as a modelled JavaScript number. -/
def JsNum.ofInt (n : Int) : JsNum := ⟨n, 0⟩

/-- Field lookup on a JSON object (`none` when the value is not an
object or the key is absent; JSON objects are assumed to have distinct
keys, as produced by parsing a request body). -/
def Json.getField : Json → String → Option Json
  | .obj fields, key => (fields.find? (fun p => p.1 == key)).map Prod.snd
  | _, _ => none

/-- The length constraint `z.string().min(3).max(1024)` shared by
`title`, `question` and `answer`. -/
def strLenOk (s : String) : Bool :=
  3 ≤ s.length && s.length ≤ 1024

/-- Payload of `CategoryToCreateSchema` (`categories.db.ts`):
`{ title: z.string().min(3).max(1024) }`. -/
structure CategoryToCreate where
  title : String
deriving DecidableEq

/-- Payload of `CategoryToUpdateSchema` (`categories.db.ts`):
`{ title: z.string().min(3).max(1024) }` — the `title` field is NOT
marked `.optional()` in the code. -/
structure CategoryToUpdate where
  title : String
deriving DecidableEq

/-- Payload of `QuestionToCreateSchema` (`questions.db.ts`):
`question`/`answer` strings of length 3..1024 and
`categoryId: z.number()` — a plain number, with no `.int()` refinement. -/
structure QuestionToCreate where
  question : String
  answer : String
  categoryId : JsNum
deriving DecidableEq

/-- Payload of `QuestionToUpdateSchema` (`questions.db.ts`): the same
three fields, each `.optional()`. -/
structure QuestionToUpdate where
  question : Option String
  answer : Option String
  categoryId : Option JsNum
deriving DecidableEq

/-- A required `z.string().min(3).max(1024)` field: the field value
must be present, be a string, and satisfy the length bounds. -/
def parseRequiredStr (o : Option Json) : Option String :=
  match o with
  | some (.str s) => if strLenOk s then some s else none
  | _ => none

/-- A required `z.number()` field: the field value must be present and
be a number (of any value — zod checks no integrality here). -/
def parseRequiredNum (o : Option Json) : Option JsNum :=
  match o with
  | some (.num m e) => some (JsNum.mk m e)
  | _ => none

/-- `validateCategoryForCreate` (`categories.db.ts`):
`CategoryToCreateSchema.safeParse(data)`. -/
def validateCategoryForCreate (j : Json) : Option CategoryToCreate :=
  (parseRequiredStr (j.getField "title")).map CategoryToCreate.mk

/-- `validateCategoryForUpdate` (`categories.db.ts`):
`CategoryToUpdateSchema.safeParse(data)`; `title` is required by the
schema (no `.optional()` in the code), so an input without a valid
string `title` fails. -/
def validateCategoryForUpdate (j : Json) : Option CategoryToUpdate :=
  (parseRequiredStr (j.getField "title")).map CategoryToUpdate.mk

/-- `validateQuestionForCreate` (`questions.db.ts`):
`QuestionToCreateSchema.safeParse(data)`; `categoryId` only has to be a
number. -/
def validateQuestionForCreate (j : Json) : Option QuestionToCreate :=
  match parseRequiredStr (j.getField "question"),
        parseRequiredStr (j.getField "answer"),
        parseRequiredNum (j.getField "categoryId") with
  | some q, some a, some c => some ⟨q, a, c⟩
  | _, _, _ => none

/-- An optional string field of `QuestionToUpdateSchema`: absent is
accepted as `none`; a present value must be a string of valid length
(`null` or another type fails, as under zod `.optional()`). -/
def parseOptionalStr (o : Option Json) : Option (Option String) :=
  match o with
  | none => some none
  | some (.str s) => if strLenOk s then some (some s) else none
  | some _ => none

/-- The optional `categoryId` field of `QuestionToUpdateSchema`. -/
def parseOptionalNum (o : Option Json) : Option (Option JsNum) :=
  match o with
  | none => some none
  | some (.num m e) => some (some ⟨m, e⟩)
  | some _ => none

/-- `validateQuestionForUpdate` (`questions.db.ts`):
`QuestionToUpdateSchema.safeParse(data)`, all three fields optional.
zod rejects non-object inputs even when every field is optional. -/
def validateQuestionForUpdate (j : Json) : Option QuestionToUpdate :=
  match j with
  | .obj _ =>
    match parseOptionalStr (j.getField "question"),
          parseOptionalStr (j.getField "answer"),
          parseOptionalNum (j.getField "categoryId") with
    | some q, some a, some c => some ⟨q, a, c⟩
    | _, _, _ => none
  | _ => none

/-- The regex class `\s` on the modelled character fragment (ASCII
whitespace plus NBSP; the remaining Unicode space characters matched by
JavaScript are outside the model). -/
def jsIsSpace (c : Char) : Bool :=
  c == ' ' || c == '\t' || c == '\n' || c == '\r' || c == '\x0b' ||
    c == '\x0c' || c == '\xA0'

/-- The regex class `\w`: ASCII letters, digits and underscore. -/
def isWordChar (c : Char) : Bool :=
  c.isAlphanum || c == '_'

/-- One pass of `.replace(/\s+/g, '-')`: the flag records whether the
previous character was whitespace, so that each maximal whitespace run
emits a single hyphen. -/
def collapseWsAux : Bool → List Char → List Char
  | _, [] => []
  | prevSpace, c :: cs =>
    if jsIsSpace c then
      if prevSpace then collapseWsAux true cs
      else '-' :: collapseWsAux true cs
    else c :: collapseWsAux false cs

/-- The slug pipeline shared by `createCategory`, `updateCategory`,
`createQuestion` and `updateQuestion`:
`.toLowerCase().replace(/\s+/g, '-').replace(/[^\w-]+/g, '')`.
`Char.toLower` lower-cases the ASCII range, like `toLowerCase` does on
the ASCII inputs of this repository. -/
def slugify (s : String) : String :=
  String.mk
    ((collapseWsAux false (s.data.map Char.toLower)).filter
      (fun c => isWordChar c || c == '-'))

/-- Specification-side reading of `.replace(/\s+/g, '-')`: on meeting a
whitespace character, emit one hyphen and skip the rest of that
whitespace run.  Used to check that the flag-based translation above
really replaces each run with a single hyphen. -/
def collapseRuns : List Char → List Char
  | [] => []
  | c :: cs =>
    if jsIsSpace c then '-' :: collapseRuns (cs.dropWhile jsIsSpace)
    else c :: collapseRuns cs
termination_by l => l.length
decreasing_by
  · exact Nat.lt_succ_of_le (List.dropWhile_sublist jsIsSpace).length_le
  · exact Nat.lt_succ_of_le (Nat.le_refl _)

/-- A row of the `Categories` table (`prisma/schema.prisma`):
`id` (autoincrement primary key), `title` (unique), `slug` (unique). -/
structure Category where
  id : Int
  title : String
  slug : String
deriving DecidableEq

/-- A row of the `Questions` table: `id` (autoincrement primary key),
`question`, `answer`, `slug` (unique), `categoryId` (an `Int` column;
kept as a modelled JavaScript number since the rows travel through the
JavaScript layer). -/
structure Question where
  id : Int
  question : String
  answer : String
  slug : String
  categoryId : JsNum
deriving DecidableEq

/-- `prisma.categories.findUnique({ where: { slug } })`: the row of the
store whose unique `slug` column matches. -/
def findCategoryBySlug (db : List Category) (slug : String) : Option Category :=
  db.find? (fun c => c.slug == slug)

/-- `prisma.questions.findUnique({ where: { id } })`. -/
def findQuestionById (db : List Question) (id : Int) : Option Question :=
  db.find? (fun q => q.id == id)

/-- `update` keyed by a unique column: rewrite the first row matching
the predicate (on a store satisfying the uniqueness constraint it is
the only one). -/
def replaceFirst (p : α → Bool) (f : α → α) : List α → List α
  | [] => []
  | x :: xs => if p x then f x :: xs else x :: replaceFirst p f xs

/-- JavaScript truthiness of an optional string: `undefined` and the
empty string are falsy. -/
def strTruthy : Option String → Option String
  | some s => if s == "" then none else some s
  | none => none

/-- `createCategory` (`categories.db.ts`): derive the slug from the
title with the slug pipeline and insert the row; the title is stored
as supplied.  The store assigns `id` (autoincrement), modelled by the
injected `nextId`. -/
def createCategory (db : List Category) (nextId : Int)
    (categoryToCreate : CategoryToCreate) : List Category × Category :=
  let slug := slugify categoryToCreate.title
  let createdCategory : Category := ⟨nextId, categoryToCreate.title, slug⟩
  (db ++ [createdCategory], createdCategory)

/-- `updateCategory` (`categories.db.ts`): look the row up by the given
slug; absent gives `none` with the store untouched.  Otherwise
`newSlug` starts as the existing slug and is recomputed from
`changes.title` whenever that string is truthy; the stored title is
`changes.title ?? existing.title`, which is always `changes.title`
since the update payload type makes `title` a non-nullable string; the
`update` statement is keyed by the original `slug` argument. -/
def updateCategory (db : List Category) (slug : String)
    (changes : CategoryToUpdate) : List Category × Option Category :=
  match findCategoryBySlug db slug with
  | none => (db, none)
  | some existing =>
    let newSlug := match strTruthy (some changes.title) with
      | some t => slugify t
      | none => existing.slug
    let updated : Category := ⟨existing.id, changes.title, newSlug⟩
    (replaceFirst (fun c => c.slug == slug) (fun _ => updated) db, some updated)

/-- `deleteCategory` (`categories.db.ts`): look the row up by slug
first; absent gives `none` with the store untouched; otherwise delete
the row keyed by the slug and return the deleted record. -/
def deleteCategory (db : List Category) (slug : String) :
    List Category × Option Category :=
  match findCategoryBySlug db slug with
  | none => (db, none)
  | some existing =>
    (db.eraseP (fun c => c.slug == slug), some existing)

/-- `createQuestion` (`questions.db.ts`): sanitize `question` and
`answer` with the injected sanitizer, but derive the slug from
`data.question` — the raw input text, not the sanitized value; insert
with the given `categoryId`. -/
def createQuestion (san : String → String) (db : List Question)
    (nextId : Int) (data : QuestionToCreate) : List Question × Question :=
  let safeQuestion := san data.question
  let safeAnswer := san data.answer
  let slug := slugify data.question
  let created : Question := ⟨nextId, safeQuestion, safeAnswer, slug, data.categoryId⟩
  (db ++ [created], created)

/-- `deleteQuestion` (`questions.db.ts`): look the row up by id first;
absent gives `none` with the store untouched; otherwise delete and
return the deleted record. -/
def deleteQuestion (db : List Question) (id : Int) :
    List Question × Option Question :=
  match findQuestionById db id with
  | none => (db, none)
  | some existing =>
    (db.eraseP (fun q => q.id == id), some existing)

/-- `updateQuestion` (`questions.db.ts`): look the row up by id; absent
gives `none`.  A truthy supplied `question`/`answer` is sanitized, a
missing one keeps the existing value; the slug is recomputed from the
sanitized question exactly when `question` is truthy; `categoryId`
falls back to the existing value through `??`. -/
def updateQuestion (san : String → String) (db : List Question) (id : Int)
    (changes : QuestionToUpdate) : List Question × Option Question :=
  match findQuestionById db id with
  | none => (db, none)
  | some existing =>
    let safeQuestion := match strTruthy changes.question with
      | some q => san q
      | none => existing.question
    let safeAnswer := match strTruthy changes.answer with
      | some a => san a
      | none => existing.answer
    let newSlug := match strTruthy changes.question with
      | some _ => slugify safeQuestion
      | none => existing.slug
    let updated : Question :=
      ⟨existing.id, safeQuestion, safeAnswer, newSlug,
        changes.categoryId.getD existing.categoryId⟩
    (replaceFirst (fun q => q.id == id) (fun _ => updated) db, some updated)

/-- `prisma.questions.findMany({ where: { categoryId }, orderBy: { id: 'asc' } })`:
rows of the category, sorted by ascending id. -/
def questionsOfCategory (db : List Question) (categoryId : Int) : List Question :=
  (db.filter (fun q => JsNum.eqv q.categoryId (JsNum.ofInt categoryId))).mergeSort
    (fun a b => decide (a.id ≤ b.id))

/-- `getQuestionByCategorySlug` (`questions.db.ts`): resolve the
category by slug first; no category gives `none`; otherwise the
questions of that category, ordered by ascending id (an empty list for
a category with no questions). -/
def getQuestionByCategorySlug (catDb : List Category) (qDb : List Question)
    (slug : String) : Option (List Question) :=
  match findCategoryBySlug catDb slug with
  | none => none
  | some category => some (questionsOfCategory qDb category.id)

/-- The value of the maximal run of leading decimal digits, `none`
when the first character is not a digit. -/
def jsLeadingDigits (l : List Char) : Option Nat :=
  let ds := l.takeWhile Char.isDigit
  if ds.isEmpty then none
  else some (ds.foldl (fun acc c => acc * 10 + (c.toNat - '0'.toNat)) 0)

/-- `parseInt(s, 10)` as used by the question routes: skip leading
whitespace, read an optional sign and then the maximal run of leading
decimal digits; `none` stands for `NaN` (no digit found).  Trailing
non-digit characters are ignored, exactly as `parseInt` ignores them. -/
def jsParseInt10 (s : String) : Option Int :=
  let chars := s.data.dropWhile jsIsSpace
  match chars with
  | '-' :: rest => (jsLeadingDigits rest).map (fun n => -(n : Int))
  | '+' :: rest => (jsLeadingDigits rest).map (fun n => (n : Int))
  | rest => (jsLeadingDigits rest).map (fun n => (n : Int))

/-- The `GET /questions/:id` route handler (`index.ts`): parse the id
parameter with `parseInt(-, 10)`; `NaN` answers 400 before any storage
access; otherwise `getQuestionById` runs and a missing row answers 404.
The result is the status code, the returned row if any, and the list
of ids looked up in storage. -/
def getQuestionsIdRoute (db : List Question) (idParam : String) :
    (Nat × Option Question) × List Int :=
  match jsParseInt10 idParam with
  | none => ((400, none), [])
  | some id =>
    match findQuestionById db id with
    | none => ((404, none), [id])
    | some q => ((200, some q), [id])

/-- The `DELETE /questions/:id` route handler (`index.ts`): parse the
id with `parseInt(-, 10)`; `NaN` answers 400 with no storage access;
otherwise `deleteQuestion` runs: `null` answers 404, a deleted row
answers 204 with an empty body.  The result also carries the updated
store and the ids looked up in storage. -/
def deleteQuestionsIdRoute (db : List Question) (idParam : String) :
    (Nat × List Question) × List Int :=
  match jsParseInt10 idParam with
  | none => ((400, db), [])
  | some id =>
    match deleteQuestion db id with
    | (db2, none) => ((404, db2), [id])
    | (db2, some _) => ((204, db2), [id])

/-- Modelled from the spec: the external `xss` sanitizer (a library
dependency whose code is not part of this repository) strips or escapes
active HTML/script content so that the output is safe to render in an
HTML context.  Modelled as escaping the markup delimiters: `<` becomes
`&lt;` and `>` becomes `&gt;` (what the library does to a tag outside
its whitelist, such as `script`). -/
def xssModel (s : String) : String :=
  String.mk (s.data.flatMap (fun c =>
    if c == '<' then "&lt;".data
    else if c == '>' then "&gt;".data
    else [c]))

/-! ### Helper lemmas -/

/-- A string passing the length validation is nonempty. -/
theorem strLenOk_ne_empty {s : String} (h : strLenOk s = true) : s ≠ "" := by
  intro he
  rw [he] at h
  exact absurd h (by decide)

/-- Truthiness of a present, validated string: it is not empty, so the
truthiness test keeps it. -/
theorem strTruthy_some {s : String} (h : s ≠ "") :
    strTruthy (some s) = some s := by
  simp [strTruthy, h]

/-- The flag-based translation of `.replace(/\s+/g, '-')` agrees with
the one-hyphen-per-run reading: the flag variant with the flag set
behaves as the run variant after the current run is skipped. -/
theorem collapseWsAux_eq_collapseRuns (l : List Char) :
    collapseWsAux true l = collapseRuns (l.dropWhile jsIsSpace) ∧
    collapseWsAux false l = collapseRuns l := by
  induction l with
  | nil => constructor <;> simp [collapseWsAux, collapseRuns]
  | cons c cs ih =>
    by_cases hc : jsIsSpace c = true
    · constructor
      · rw [List.dropWhile_cons_of_pos hc]
        simpa [collapseWsAux, hc] using ih.1
      · rw [collapseRuns]
        simp only [hc, if_true, collapseWsAux]
        exact congrArg (fun t => '-' :: t) ih.1
    · have hc2 : jsIsSpace c = false := by simpa using hc
      constructor
      · rw [List.dropWhile_cons_of_neg (by simp [hc2])]
        rw [collapseRuns]
        simp only [hc2, if_false, collapseWsAux, Bool.false_eq_true]
        exact congrArg (fun t => c :: t) ih.2
      · rw [collapseRuns]
        simp only [hc2, if_false, collapseWsAux, Bool.false_eq_true]
        exact congrArg (fun t => c :: t) ih.2

/-- Rewriting the row found by a unique-column `update`: the store
decomposes around the first matching row, and exactly that row is
rewritten. -/
theorem replaceFirst_decomp {α : Type} (p : α → Bool) (f : α → α)
    (pre post : List α) (a : α)
    (hpre : ∀ x ∈ pre, p x = false) (ha : p a = true) :
    replaceFirst p f (pre ++ a :: post) = pre ++ f a :: post := by
  induction pre with
  | nil => simp [replaceFirst, ha]
  | cons x xs ih =>
    have hx : p x = false := hpre x (by simp)
    simp only [List.cons_append, replaceFirst, hx, Bool.false_eq_true, if_false]
    exact congrArg (fun t => x :: t) (ih (fun y hy => hpre y (by simp [hy])))

/-- Dropping the row found by a unique-column `delete`: the store
decomposes around the first matching row, and exactly that row is
removed. -/
theorem eraseP_decomp {α : Type} (p : α → Bool)
    (pre post : List α) (a : α)
    (hpre : ∀ x ∈ pre, p x = false) (ha : p a = true) :
    (pre ++ a :: post).eraseP p = pre ++ post := by
  induction pre with
  | nil => simp [List.eraseP_cons, ha]
  | cons x xs ih =>
    have hx : p x = false := hpre x (by simp)
    simp only [List.cons_append, List.eraseP_cons, hx, cond_false]
    exact congrArg (fun t => x :: t) (ih (fun y hy => hpre y (by simp [hy])))

/-- Success condition of a required string field. -/
theorem parseRequiredStr_isSome (o : Option Json) :
    (parseRequiredStr o).isSome = true ↔
      ∃ s, o = some (Json.str s) ∧ 3 ≤ s.length ∧ s.length ≤ 1024 := by
  cases o with
  | none => simp [parseRequiredStr]
  | some v =>
    cases v with
    | str s =>
      by_cases h : strLenOk s = true
      · have h2 : 3 ≤ s.length ∧ s.length ≤ 1024 := by
          simpa [strLenOk] using h
        simp [parseRequiredStr, h, h2]
      · have h2 : ¬(3 ≤ s.length ∧ s.length ≤ 1024) := by
          simpa [strLenOk] using h
        simp only [parseRequiredStr, if_neg h]
        simp [h2]
    | null => simp [parseRequiredStr]
    | bool b => simp [parseRequiredStr]
    | num m e => simp [parseRequiredStr]
    | arr xs => simp [parseRequiredStr]
    | obj fs => simp [parseRequiredStr]

/-- Success condition of a required number field. -/
theorem parseRequiredNum_isSome (o : Option Json) :
    (parseRequiredNum o).isSome = true ↔
      ∃ m e, o = some (Json.num m e) := by
  cases o with
  | none => simp [parseRequiredNum]
  | some v =>
    cases v with
    | str s => simp [parseRequiredNum]
    | null => simp [parseRequiredNum]
    | bool b => simp [parseRequiredNum]
    | num m e => simp [parseRequiredNum]
    | arr xs => simp [parseRequiredNum]
    | obj fs => simp [parseRequiredNum]

/-! ### Claims -/

/-- C1 counterexample: on the spec example `"  Multiple   Spaces  "`
the slug pipeline of the code yields `"-multiple-spaces-"` — the
leading and trailing whitespace runs become hyphens that the strip
step keeps — not the claimed `"multiple-spaces"`. -/
theorem slugify_multiple_spaces_counterexample :
    ¬ (slugify "  Multiple   Spaces  " = "multiple-spaces") := by decide

/-- C1 (amended): slug derivation is a pure, deterministic function of
the source text: lower-case, replace each maximal whitespace run by a
single hyphen (the run-at-a-time reading `collapseRuns` agrees with
the code), strip every character that is not a word character or a
hyphen; `slugify "What is HTML?" = "what-is-html"`, and
`slugify "  Multiple   Spaces  " = "-multiple-spaces-"`. -/
theorem slugify_characterization :
    (∀ s, slugify s =
      String.mk ((collapseRuns (s.data.map Char.toLower)).filter
        (fun c => isWordChar c || c == '-'))) ∧
    slugify "What is HTML?" = "what-is-html" ∧
    slugify "  Multiple   Spaces  " = "-multiple-spaces-" := by
  refine ⟨fun s => ?_, by decide, by decide⟩
  unfold slugify
  rw [(collapseWsAux_eq_collapseRuns (s.data.map Char.toLower)).2]

/-- C2 counterexample: a validated payload whose question contains
markup.  The sanitizer changes the question text, and the slug stored
by `createQuestion` is the slug of the raw input, different from the
slug of the sanitized question — against the claim. -/
theorem createQuestion_slug_uses_raw_text :
    validateQuestionForCreate (Json.obj
      [("question", Json.str "<script>alert(1)</script>"),
       ("answer", Json.str "An answer"),
       ("categoryId", Json.num 1 0)]) =
      some ⟨"<script>alert(1)</script>", "An answer", ⟨1, 0⟩⟩ ∧
    (createQuestion xssModel []
      1 ⟨"<script>alert(1)</script>", "An answer", ⟨1, 0⟩⟩).2.slug =
      "scriptalert1script" ∧
    slugify (xssModel "<script>alert(1)</script>") =
      "ltscriptgtalert1ltscriptgt" := by
  refine ⟨by decide, by decide, by decide⟩

/-- C2 (amended): for every payload and sanitizer, `createQuestion`
stores the sanitized question and answer, but derives the stored slug
from the raw input question text (not from the sanitized value), and
appends the row with the given category id. -/
theorem createQuestion_fields (san : String → String) (db : List Question)
    (nextId : Int) (data : QuestionToCreate) :
    (createQuestion san db nextId data).2.question = san data.question ∧
    (createQuestion san db nextId data).2.answer = san data.answer ∧
    (createQuestion san db nextId data).2.slug = slugify data.question ∧
    (createQuestion san db nextId data).2.categoryId = data.categoryId ∧
    (createQuestion san db nextId data).1 =
      db ++ [(createQuestion san db nextId data).2] :=
  ⟨rfl, rfl, rfl, rfl, rfl⟩

/-- C3 counterexample: an input object with no `title` field fails
`validateCategoryForUpdate` — the update schema does not mark `title`
optional — against the claim that omitting `title` succeeds. -/
theorem validateCategoryForUpdate_rejects_missing_title :
    validateCategoryForUpdate (Json.obj []) = none := by decide

/-- C3 (amended): `validateCategoryForUpdate` requires `title`:
validation succeeds exactly when the input carries a `title` field
that is a string of length 3 to 1024. -/
theorem validateCategoryForUpdate_title_required (j : Json) :
    (validateCategoryForUpdate j).isSome = true ↔
      ∃ t, j.getField "title" = some (Json.str t) ∧
        3 ≤ t.length ∧ t.length ≤ 1024 := by
  unfold validateCategoryForUpdate
  rw [← parseRequiredStr_isSome]
  cases parseRequiredStr (j.getField "title") <;> simp

/-- C4 counterexample: a payload whose `categoryId` is the non-integer
number 2.5 (the dyadic 5 / 2 ^ 1) passes `validateQuestionForCreate` —
the schema uses a plain number with no integrality refinement —
against the claim that a non-integral `categoryId` is rejected. -/
theorem validateQuestionForCreate_accepts_noninteger :
    validateQuestionForCreate (Json.obj
      [("question", Json.str "What is CSS?"),
       ("answer", Json.str "A styling language"),
       ("categoryId", Json.num 5 1)]) =
      some ⟨"What is CSS?", "A styling language", ⟨5, 1⟩⟩ ∧
    JsNum.isInt ⟨5, 1⟩ = false := by decide

/-- C4 (amended): `validateQuestionForCreate` succeeds exactly when
`question` and `answer` are strings of length 3 to 1024 and
`categoryId` is a number — any number: integrality is not checked. -/
theorem validateQuestionForCreate_iff (j : Json) :
    (validateQuestionForCreate j).isSome = true ↔
      (∃ q, j.getField "question" = some (Json.str q) ∧
        3 ≤ q.length ∧ q.length ≤ 1024) ∧
      (∃ a, j.getField "answer" = some (Json.str a) ∧
        3 ≤ a.length ∧ a.length ≤ 1024) ∧
      (∃ m e, j.getField "categoryId" = some (Json.num m e)) := by
  unfold validateQuestionForCreate
  rw [← parseRequiredStr_isSome, ← parseRequiredStr_isSome,
    ← parseRequiredNum_isSome]
  cases parseRequiredStr (j.getField "question") <;>
    cases parseRequiredStr (j.getField "answer") <;>
      cases parseRequiredNum (j.getField "categoryId") <;> simp

/-- C5 counterexample: a validated change whose title equals the
existing title (so the title did NOT change) still gets its slug
recomputed: the row stored for a category with slug `"custom-slug"`
and title `"HTML"` receives slug `"html"`, not the existing slug —
against the claim that the slug is recomputed exactly when the title
changed and is otherwise the existing slug. -/
theorem updateCategory_slug_always_recomputed :
    strLenOk "HTML" = true ∧
    (updateCategory [⟨1, "HTML", "custom-slug"⟩] "custom-slug" ⟨"HTML"⟩).2 =
      some ⟨1, "HTML", "html"⟩ := by decide

/-- C5 (amended): `updateCategory` looks the category up by the
current slug and returns `none` without touching the store when it is
absent; when found, the persisted record keeps the id, takes title
`changes.title` (`changes.title ?? existing.title`, with `title`
required by the update schema), and its slug is recomputed from
`changes.title` by the slug algorithm on EVERY validated update —
whether or not the title differs from the existing one — and the
update statement is keyed by the original slug (the rewritten row is
the first one carrying it, every earlier row being untouched). -/
theorem updateCategory_spec (db : List Category) (slug : String)
    (changes : CategoryToUpdate) (hv : strLenOk changes.title = true) :
    (findCategoryBySlug db slug = none →
      updateCategory db slug changes = (db, none)) ∧
    (∀ ex, findCategoryBySlug db slug = some ex →
      (updateCategory db slug changes).2 =
        some ⟨ex.id, changes.title, slugify changes.title⟩ ∧
      ∃ pre post, db = pre ++ ex :: post ∧
        (∀ c ∈ pre, (c.slug == slug) = false) ∧
        (updateCategory db slug changes).1 =
          pre ++ (⟨ex.id, changes.title, slugify changes.title⟩ : Category) :: post) := by
  constructor
  · intro h
    unfold updateCategory
    rw [h]
  · intro ex h
    have hfind := h
    unfold findCategoryBySlug at hfind
    obtain ⟨hp, pre, post, hdb, hpre⟩ := List.find?_eq_some.mp hfind
    have hpre2 : ∀ c ∈ pre, (c.slug == slug) = false := by
      intro c hc
      simpa using hpre c hc
    have htr : strTruthy (some changes.title) = some changes.title :=
      strTruthy_some (strLenOk_ne_empty hv)
    have hupd : updateCategory db slug changes =
        (replaceFirst (fun c => c.slug == slug)
          (fun _ => ⟨ex.id, changes.title, slugify changes.title⟩) db,
         some ⟨ex.id, changes.title, slugify changes.title⟩) := by
      unfold updateCategory
      rw [h]
      simp only [htr]
    refine ⟨by rw [hupd], pre, post, hdb, hpre2, ?_⟩
    rw [hupd, hdb]
    exact replaceFirst_decomp _ _ pre post ex hpre2 hp

/-- C5 witness: a concrete update through the amended theorem. -/
theorem updateCategory_spec_witness :
    (updateCategory [⟨1, "HTML", "html"⟩] "html" ⟨"Updated HTML"⟩).2 =
      some ⟨1, "Updated HTML", "updated-html"⟩ := by
  have h := ((updateCategory_spec [⟨1, "HTML", "html"⟩] "html"
    ⟨"Updated HTML"⟩ (by decide)).2 ⟨1, "HTML", "html"⟩ (by decide)).1
  exact h.trans (by decide)

/-- C6 (confirmed): on a validated partial change set,
`updateQuestion` keeps the id; a missing `question` keeps the existing
question AND the existing slug; a supplied `question` is stored
sanitized and the slug is recomputed from the sanitized text; a
missing `answer` keeps the existing answer, a supplied one is stored
sanitized; a missing `categoryId` keeps the existing one, a supplied
one replaces it. -/
theorem updateQuestion_spec (san : String → String) (db : List Question)
    (id : Int) (changes : QuestionToUpdate) (ex : Question)
    (hfound : findQuestionById db id = some ex)
    (hq : ∀ q, changes.question = some q → strLenOk q = true)
    (ha : ∀ a, changes.answer = some a → strLenOk a = true) :
    ∃ upd, (updateQuestion san db id changes).2 = some upd ∧
      upd.id = ex.id ∧
      (changes.question = none → upd.question = ex.question ∧ upd.slug = ex.slug) ∧
      (∀ q, changes.question = some q →
        upd.question = san q ∧ upd.slug = slugify (san q)) ∧
      (changes.answer = none → upd.answer = ex.answer) ∧
      (∀ a, changes.answer = some a → upd.answer = san a) ∧
      (changes.categoryId = none → upd.categoryId = ex.categoryId) ∧
      (∀ c, changes.categoryId = some c → upd.categoryId = c) := by
  unfold updateQuestion
  rw [hfound]
  cases hcq : changes.question with
  | none =>
    cases hca : changes.answer with
    | none =>
      refine ⟨_, rfl, rfl, fun _ => ⟨rfl, rfl⟩, by simp, fun _ => rfl,
        by simp, ?_, ?_⟩
      · intro hc
        show changes.categoryId.getD ex.categoryId = ex.categoryId
        rw [hc]
        rfl
      · intro c hc
        show changes.categoryId.getD ex.categoryId = c
        rw [hc]
        rfl
    | some a =>
      have hta : strTruthy (some a) = some a :=
        strTruthy_some (strLenOk_ne_empty (ha a hca))
      simp only [hta]
      refine ⟨_, rfl, rfl, fun _ => ⟨rfl, rfl⟩, by simp, by simp, ?_, ?_, ?_⟩
      · intro a2 ha2
        injection ha2 with ha3
        rw [← ha3]
      · intro hc
        show changes.categoryId.getD ex.categoryId = ex.categoryId
        rw [hc]
        rfl
      · intro c hc
        show changes.categoryId.getD ex.categoryId = c
        rw [hc]
        rfl
  | some q =>
    have htq : strTruthy (some q) = some q :=
      strTruthy_some (strLenOk_ne_empty (hq q hcq))
    cases hca : changes.answer with
    | none =>
      simp only [htq]
      refine ⟨_, rfl, rfl, by simp, ?_, fun _ => rfl, by simp, ?_, ?_⟩
      · intro q2 hq2
        injection hq2 with hq3
        rw [← hq3]
        exact ⟨rfl, rfl⟩
      · intro hc
        show changes.categoryId.getD ex.categoryId = ex.categoryId
        rw [hc]
        rfl
      · intro c hc
        show changes.categoryId.getD ex.categoryId = c
        rw [hc]
        rfl
    | some a =>
      have hta : strTruthy (some a) = some a :=
        strTruthy_some (strLenOk_ne_empty (ha a hca))
      simp only [htq, hta]
      refine ⟨_, rfl, rfl, by simp, ?_, by simp, ?_, ?_, ?_⟩
      · intro q2 hq2
        injection hq2 with hq3
        rw [← hq3]
        exact ⟨rfl, rfl⟩
      · intro a2 ha2
        injection ha2 with ha3
        rw [← ha3]
      · intro hc
        show changes.categoryId.getD ex.categoryId = ex.categoryId
        rw [hc]
        rfl
      · intro c hc
        show changes.categoryId.getD ex.categoryId = c
        rw [hc]
        rfl

/-- C6 witness: a concrete partial update (only `question` supplied)
through the theorem: the question is sanitized and the slug follows
it, while answer and category id keep their existing values. -/
theorem updateQuestion_spec_witness :
    ∃ upd, (updateQuestion xssModel
        [⟨1, "Old question", "Old answer", "old-question", ⟨1, 0⟩⟩] 1
        ⟨some "New question", none, none⟩).2 = some upd ∧
      upd.question = "New question" ∧ upd.slug = "new-question" ∧
      upd.answer = "Old answer" ∧ upd.categoryId = ⟨1, 0⟩ := by
  obtain ⟨upd, hsome, hid, hnq, hsq, hna, hsa, hnc, hsc⟩ :=
    updateQuestion_spec xssModel
      [⟨1, "Old question", "Old answer", "old-question", ⟨1, 0⟩⟩] 1
      ⟨some "New question", none, none⟩
      ⟨1, "Old question", "Old answer", "old-question", ⟨1, 0⟩⟩
      (by decide)
      (by intro q h; injection h with h2; rw [← h2]; decide)
      (by intro a h; simp at h)
  have h1 := hsq "New question" rfl
  exact ⟨upd, hsome, h1.1.trans (by decide), h1.2.trans (by decide),
    hna rfl, hnc rfl⟩

/-- C7 (confirmed): `getQuestionByCategorySlug` distinguishes a
missing category from a category with no questions: an unmatched slug
gives `none` (the category-not-found signal); a matched category gives
`some l` where `l` holds exactly the questions whose category id is
the category id, in ascending id order — the empty list when no
question references the category. -/
theorem getQuestionByCategorySlug_spec (catDb : List Category)
    (qDb : List Question) (slug : String) :
    (findCategoryBySlug catDb slug = none →
      getQuestionByCategorySlug catDb qDb slug = none) ∧
    (∀ cat, findCategoryBySlug catDb slug = some cat →
      ∃ l, getQuestionByCategorySlug catDb qDb slug = some l ∧
        (∀ q, q ∈ l ↔ q ∈ qDb ∧
          JsNum.eqv q.categoryId (JsNum.ofInt cat.id) = true) ∧
        l.Pairwise (fun a b => a.id ≤ b.id) ∧
        ((∀ q ∈ qDb, JsNum.eqv q.categoryId (JsNum.ofInt cat.id) = false) →
          l = [])) := by
  constructor
  · intro h
    unfold getQuestionByCategorySlug
    rw [h]
  · intro cat h
    refine ⟨questionsOfCategory qDb cat.id, ?_, ?_, ?_, ?_⟩
    · unfold getQuestionByCategorySlug
      rw [h]
    · intro q
      unfold questionsOfCategory
      rw [List.mem_mergeSort, List.mem_filter]
    · unfold questionsOfCategory
      refine List.Pairwise.imp (fun hab => of_decide_eq_true hab)
        (List.sorted_mergeSort ?_ ?_
          (qDb.filter (fun q => JsNum.eqv q.categoryId (JsNum.ofInt cat.id))))
      · intro a b c hab hbc
        exact decide_eq_true
          (le_trans (of_decide_eq_true hab) (of_decide_eq_true hbc))
      · intro a b
        rcases le_total a.id b.id with h2 | h2 <;> simp [h2]
    · intro hall
      unfold questionsOfCategory
      have hnil : qDb.filter
          (fun q => JsNum.eqv q.categoryId (JsNum.ofInt cat.id)) = [] := by
        rw [List.filter_eq_nil_iff]
        intro q hqmem
        simp [hall q hqmem]
      rw [hnil]
      exact List.mergeSort_nil

/-- C7 witness: an unmatched slug gives the not-found signal, and a
matched category with no questions gives the empty list. -/
theorem getQuestionByCategorySlug_spec_witness :
    getQuestionByCategorySlug [⟨1, "HTML", "html"⟩] [] "nonexistent" = none ∧
    ∃ l, getQuestionByCategorySlug [⟨1, "HTML", "html"⟩] [] "html" = some l ∧
      l = [] := by
  constructor
  · exact (getQuestionByCategorySlug_spec [⟨1, "HTML", "html"⟩] []
      "nonexistent").1 (by decide)
  · obtain ⟨l, hl, hmem, hsort, hempty⟩ :=
      (getQuestionByCategorySlug_spec [⟨1, "HTML", "html"⟩] [] "html").2
        ⟨1, "HTML", "html"⟩ (by decide)
    exact ⟨l, hl, hempty (by intro q hq; cases hq)⟩

/-- C8 (confirmed): both delete operations look the entity up first:
an unmatched slug/id returns `none` with the store untouched; a
matched row is returned as the deleted record and the store loses
exactly that row (the first one carrying the key). -/
theorem delete_looks_up_first (catDb : List Category) (qDb : List Question)
    (slug : String) (id : Int) :
    (findCategoryBySlug catDb slug = none →
      deleteCategory catDb slug = (catDb, none)) ∧
    (∀ ex, findCategoryBySlug catDb slug = some ex →
      (deleteCategory catDb slug).2 = some ex ∧
      ∃ pre post, catDb = pre ++ ex :: post ∧
        (∀ c ∈ pre, (c.slug == slug) = false) ∧
        (deleteCategory catDb slug).1 = pre ++ post) ∧
    (findQuestionById qDb id = none →
      deleteQuestion qDb id = (qDb, none)) ∧
    (∀ ex, findQuestionById qDb id = some ex →
      (deleteQuestion qDb id).2 = some ex ∧
      ∃ pre post, qDb = pre ++ ex :: post ∧
        (∀ q ∈ pre, (q.id == id) = false) ∧
        (deleteQuestion qDb id).1 = pre ++ post) := by
  refine ⟨?_, ?_, ?_, ?_⟩
  · intro h
    unfold deleteCategory
    rw [h]
  · intro ex h
    have hfind := h
    unfold findCategoryBySlug at hfind
    obtain ⟨hp, pre, post, hdb, hpre⟩ := List.find?_eq_some.mp hfind
    have hpre2 : ∀ c ∈ pre, (c.slug == slug) = false := by
      intro c hc
      simpa using hpre c hc
    refine ⟨by unfold deleteCategory; rw [h], pre, post, hdb, hpre2, ?_⟩
    unfold deleteCategory
    rw [h]
    show List.eraseP (fun c => c.slug == slug) catDb = pre ++ post
    rw [hdb]
    exact eraseP_decomp _ pre post ex hpre2 hp
  · intro h
    unfold deleteQuestion
    rw [h]
  · intro ex h
    have hfind := h
    unfold findQuestionById at hfind
    obtain ⟨hp, pre, post, hdb, hpre⟩ := List.find?_eq_some.mp hfind
    have hpre2 : ∀ q ∈ pre, (q.id == id) = false := by
      intro q hqmem
      simpa using hpre q hqmem
    refine ⟨by unfold deleteQuestion; rw [h], pre, post, hdb, hpre2, ?_⟩
    unfold deleteQuestion
    rw [h]
    show List.eraseP (fun q => q.id == id) qDb = pre ++ post
    rw [hdb]
    exact eraseP_decomp _ pre post ex hpre2 hp

/-- C8 witness: an unmatched slug deletes nothing; a matched question
id returns the deleted record itself. -/
theorem delete_looks_up_first_witness :
    deleteCategory [⟨1, "HTML", "html"⟩] "nonexistent" =
      ([⟨1, "HTML", "html"⟩], none) ∧
    (deleteQuestion [⟨1, "Test Question 1", "Test Answer 1",
      "test-question-1", ⟨1, 0⟩⟩] 1).2 =
      some ⟨1, "Test Question 1", "Test Answer 1", "test-question-1", ⟨1, 0⟩⟩ := by
  constructor
  · exact (delete_looks_up_first [⟨1, "HTML", "html"⟩] [] "nonexistent" 0).1
      (by decide)
  · exact ((delete_looks_up_first [] [⟨1, "Test Question 1", "Test Answer 1",
      "test-question-1", ⟨1, 0⟩⟩] "x" 1).2.2.2
      ⟨1, "Test Question 1", "Test Answer 1", "test-question-1", ⟨1, 0⟩⟩
      (by decide)).1

/-- C9 counterexample: the id parameter `"12abc"` is not a numeric
string, yet `parseInt` reads it as 12, so the GET and DELETE handlers
perform a storage lookup of id 12 and answer 404 (not 400) on an
empty store — against the claim that every non-numeric id parameter
answers 400 with no storage lookup, and that 404 is reached only for
numeric ids. -/
theorem questionsIdRoute_nonnumeric_param :
    getQuestionsIdRoute [] "12abc" = ((404, none), [12]) ∧
    deleteQuestionsIdRoute [] "12abc" = ((404, []), [12]) := by decide

/-- C9 (amended): the GET and DELETE `/questions/:id` handlers answer
400 with no storage lookup exactly when `parseInt(id, 10)` yields
`NaN` (the parameter has no leading integer literal); any other
parameter — including non-numeric strings such as `"12abc"`, which
parses as 12 — reaches storage with the parsed id, and 404 is
answered exactly when that id matches no question. -/
theorem questionsIdRoute_spec (db : List Question) (s : String) :
    (jsParseInt10 s = none →
      getQuestionsIdRoute db s = ((400, none), []) ∧
      deleteQuestionsIdRoute db s = ((400, db), [])) ∧
    (∀ i, jsParseInt10 s = some i →
      (getQuestionsIdRoute db s).2 = [i] ∧
      ((getQuestionsIdRoute db s).1.1 = 404 ↔ findQuestionById db i = none) ∧
      (deleteQuestionsIdRoute db s).2 = [i] ∧
      ((deleteQuestionsIdRoute db s).1.1 = 404 ↔ findQuestionById db i = none)) := by
  constructor
  · intro h
    refine ⟨?_, ?_⟩
    · unfold getQuestionsIdRoute
      rw [h]
    · unfold deleteQuestionsIdRoute
      rw [h]
  · intro i h
    cases hf : findQuestionById db i with
    | none =>
      unfold getQuestionsIdRoute deleteQuestionsIdRoute deleteQuestion
      rw [h]
      simp [hf]
    | some q =>
      unfold getQuestionsIdRoute deleteQuestionsIdRoute deleteQuestion
      rw [h]
      simp [hf]

/-- C9 witness: through the amended theorem, `"abc"` answers 400 with
no lookup and `"7"` answers 404 on an empty store. -/
theorem questionsIdRoute_spec_witness :
    getQuestionsIdRoute [] "abc" = ((400, none), []) ∧
    (getQuestionsIdRoute [] "7").1.1 = 404 := by
  constructor
  · exact ((questionsIdRoute_spec [] "abc").1 (by decide)).1
  · exact ((questionsIdRoute_spec [] "7").2 7 (by decide)).2.1.mpr (by decide)

/-- C10 (confirmed): category titles are stored verbatim:
`createCategory` persists and returns exactly the supplied title (only
the derived slug is transformed, by the slug algorithm), and
`updateCategory` on a found category stores exactly `changes.title`
with no sanitization, escaping or trimming. -/
theorem categoryTitle_verbatim (db : List Category) (nextId : Int)
    (data : CategoryToCreate) (slug : String) (changes : CategoryToUpdate) :
    ((createCategory db nextId data).2.title = data.title ∧
      (createCategory db nextId data).2.slug = slugify data.title ∧
      (createCategory db nextId data).1 =
        db ++ [(createCategory db nextId data).2]) ∧
    (∀ ex, findCategoryBySlug db slug = some ex →
      ∃ upd, (updateCategory db slug changes).2 = some upd ∧
        upd.title = changes.title) := by
  refine ⟨⟨rfl, rfl, rfl⟩, ?_⟩
  intro ex h
  unfold updateCategory
  rw [h]
  exact ⟨_, rfl, rfl⟩

/-- C10 witness: a title carrying markup and padding is stored
verbatim by an update found by slug. -/
theorem categoryTitle_verbatim_witness :
    ∃ upd, (updateCategory [⟨1, "HTML", "html"⟩] "html"
        ⟨"  <b>Weird</b> Title  "⟩).2 = some upd ∧
      upd.title = "  <b>Weird</b> Title  " :=
  (categoryTitle_verbatim [⟨1, "HTML", "html"⟩] 2 ⟨"CSS"⟩ "html"
    ⟨"  <b>Weird</b> Title  "⟩).2 ⟨1, "HTML", "html"⟩ (by decide)
